import Mathlib

/-!
Shallow embedding of src/MPC.cpp (an MPC trajectory-optimization controller)
and proofs of the spec claims about it.

The embedding maps the C++ source as follows.

* The global configuration constants of MPC.cpp (solver_N, solver_dt, Lf,
  max_delta, max_acc, the std_* normalization scales, speed_limit and the
  segment start offsets) become Lean constants of the same names.
* The decision vector `vars` and the solver solution vector are modelled as
  functions ℕ → ℝ (only indices below n_vars are ever read).
* The fitted polynomial coefficient vector (Eigen::VectorXd) is a List ℝ;
  reading entry i is List.getD i 0 (out-of-range reads, undefined behaviour in
  the C++, are tracked separately by the read-index lists below).
* FG_eval::operator() writes each entry of `fg` exactly once, so it is
  modelled as the function FGeval from the output index to the value written:
  index 0 is the cost, index 1 + j is constraint j.  The constraint index j is
  decomposed into its segment and step exactly as the source's
  fg[1 + seg_start + t] writes lay it out.
* The bound arrays built in MPC::Solve become functions from the index to the
  final value stored there; where the source overwrites a previously stored
  value (the v segment is first set to the no-limit sentinel, then to the
  speed limit), the function returns the last value written.
* The source sets constraints_lowerbound[i] and constraints_upperbound[i]
  from the same expression at every index; the two Lean definitions therefore
  have identical bodies.
* The result extraction at the bottom of MPC::Solve becomes solve_extract,
  and the status check plus warning plus extraction becomes solve_finish,
  with the emitted warning text modelled as a list of output lines.
-/

namespace MPC

/-- Horizon length; source constant `solver_N = 12`. -/
def solver_N : ℕ := 12

/-- Timestep duration in seconds; source constant `solver_dt = 0.1`. -/
noncomputable def solver_dt : ℝ := 0.1

/-- Front-axle-to-CoG distance in meters; source constant `Lf = 2.67`. -/
noncomputable def Lf : ℝ := 2.67

/-- Steering-angle limit in radians; source constant `max_delta = 0.436332`. -/
noncomputable def max_delta : ℝ := 0.436332

/-- Acceleration limit; source constant `max_acc = 1.0`. -/
noncomputable def max_acc : ℝ := 1.0

/-- Normalization scale for cte; source constant `std_cte = 4.0`. -/
noncomputable def std_cte : ℝ := 4.0

/-- Normalization scale for epsi; source constant `std_epsi = M_PI / 5`. -/
noncomputable def std_epsi : ℝ := Real.pi / 5

/-- Normalization scale for steering rate; source `std_ddelta_dt = max_delta / 4`. -/
noncomputable def std_ddelta_dt : ℝ := max_delta / 4

/-- Normalization scale for acceleration rate; source `std_dacc_dt = max_acc / 2`. -/
noncomputable def std_dacc_dt : ℝ := max_acc / 2

/-- Modelled from the spec: the conversion factor `mps_to_mph` is declared in
MPC.h, which is not under src/.  The spec (section 6, Units) requires that the
externally supplied 70 mph speed limit be converted to meters/second before it
enters this core.  We use the standard factor 1 m/s = 3600/1609.344 mph; only
its positivity matters to any claim below. -/
noncomputable def mps_to_mph : ℝ := 3600 / 1609.344

/-- Speed limit in meters/second; source constant `speed_limit = 70 / mps_to_mph`. -/
noncomputable def speed_limit : ℝ := 70 / mps_to_mph

/-- Start offset of the x segment in the decision vector; source `x_start = 0`. -/
def x_start : ℕ := 0

/-- Start offset of the y segment; source `y_start = x_start + solver_N`. -/
def y_start : ℕ := x_start + solver_N

/-- Start offset of the psi segment; source `psi_start = y_start + solver_N`. -/
def psi_start : ℕ := y_start + solver_N

/-- Start offset of the v segment; source `v_start = psi_start + solver_N`. -/
def v_start : ℕ := psi_start + solver_N

/-- Start offset of the cte segment; source `cte_start = v_start + solver_N`. -/
def cte_start : ℕ := v_start + solver_N

/-- Start offset of the epsi segment; source `epsi_start = cte_start + solver_N`. -/
def epsi_start : ℕ := cte_start + solver_N

/-- Start offset of the delta segment; source `delta_start = epsi_start + solver_N`. -/
def delta_start : ℕ := epsi_start + solver_N

/-- Start offset of the a segment; source `a_start = delta_start + solver_N - 1`. -/
def a_start : ℕ := delta_start + solver_N - 1

/-- Total number of decision variables; source `n_vars = a_start + solver_N - 1`. -/
def n_vars : ℕ := a_start + solver_N - 1

/-- Number of constraints; source `n_constraints = delta_start`. -/
def n_constraints : ℕ := delta_start

theorem solver_N_eq : solver_N = 12 := rfl

theorem x_start_eq : x_start = 0 := rfl

theorem y_start_eq : y_start = 12 := rfl

theorem psi_start_eq : psi_start = 24 := rfl

theorem v_start_eq : v_start = 36 := rfl

theorem cte_start_eq : cte_start = 48 := rfl

theorem epsi_start_eq : epsi_start = 60 := rfl

theorem delta_start_eq : delta_start = 72 := rfl

theorem a_start_eq : a_start = 83 := rfl

theorem n_vars_eq : n_vars = 94 := rfl

theorem n_constraints_eq : n_constraints = 72 := rfl

/-- Source `polyeval_AD`: result starts at 0 and the loop over i < coeffs.size
accumulates `coeffs[i] * pow(x, i)`. -/
noncomputable def polyeval_AD (coeffs : List ℝ) (x : ℝ) : ℝ :=
  (List.range coeffs.length).foldl (fun result i => result + coeffs.getD i 0 * x ^ i) 0

/-- Weight of the squared normalized cte term at horizon step t; source line
`fg[0] += 50 * (solver_N - t) * pow(vars[cte_start + t] / std_cte, 2)`
(the subtraction is on unsigned integers with t < solver_N). -/
noncomputable def cte_weight (t : ℕ) : ℝ := 50 * ((solver_N - t : ℕ) : ℝ)

/-- Body of the first cost loop of FG_eval::operator() at step t < solver_N:
the weighted squared normalized cte, epsi and speed-deviation terms. -/
noncomputable def cost_state_term (vars : ℕ → ℝ) (t : ℕ) : ℝ :=
  cte_weight t * (vars (cte_start + t) / std_cte) ^ 2
  + 2 * (vars (epsi_start + t) / std_epsi) ^ 2
  + 50 * ((vars (v_start + t) - speed_limit) / speed_limit) ^ 2

/-- Body of the second cost loop at step t < solver_N - 1: the weighted
squared normalized actuator magnitudes. -/
noncomputable def cost_mag_term (vars : ℕ → ℝ) (t : ℕ) : ℝ :=
  5 * (vars (delta_start + t) / max_delta) ^ 2
  + 1 * (vars (a_start + t) / max_acc) ^ 2

/-- Body of the third cost loop at step t < solver_N - 2: the weighted squared
normalized consecutive actuator differences. -/
noncomputable def cost_rate_term (vars : ℕ → ℝ) (t : ℕ) : ℝ :=
  50 * ((vars (delta_start + t + 1) - vars (delta_start + t)) / std_ddelta_dt) ^ 2
  + 1 * ((vars (a_start + t + 1) - vars (a_start + t)) / std_dacc_dt) ^ 2

/-- The cost accumulated into fg[0] by the three loops of FG_eval::operator(). -/
noncomputable def cost (vars : ℕ → ℝ) : ℝ :=
  (∑ t ∈ Finset.range solver_N, cost_state_term vars t)
  + (∑ t ∈ Finset.range (solver_N - 1), cost_mag_term vars t)
  + (∑ t ∈ Finset.range (solver_N - 2), cost_rate_term vars t)

/-- Source `helper_psi_term = v0 * delta0 / Lf * solver_dt`, computed once in
the future-step loop body and used in both the psi and the epsi residual. -/
noncomputable def helper_psi_term (vars : ℕ → ℝ) (t : ℕ) : ℝ :=
  vars (v_start + t - 1) * vars (delta_start + t - 1) / Lf * solver_dt

/-- Constraint residual of the x segment at step t: the raw head variable at
t = 0 (source line fg[1 + x_start] = vars[x_start]) and the dynamics residual
at t >= 1 (source line fg[1 + x_start + t] = x1 - (x0 + v0 * cos(psi0) * dt)). -/
noncomputable def res_x (vars : ℕ → ℝ) (t : ℕ) : ℝ :=
  if t = 0 then vars x_start
  else vars (x_start + t)
    - (vars (x_start + t - 1)
       + vars (v_start + t - 1) * Real.cos (vars (psi_start + t - 1)) * solver_dt)

/-- Constraint residual of the y segment at step t (source lines
fg[1 + y_start] = vars[y_start] and fg[1 + y_start + t] = y1 - (y0 + v0 * sin(psi0) * dt)). -/
noncomputable def res_y (vars : ℕ → ℝ) (t : ℕ) : ℝ :=
  if t = 0 then vars y_start
  else vars (y_start + t)
    - (vars (y_start + t - 1)
       + vars (v_start + t - 1) * Real.sin (vars (psi_start + t - 1)) * solver_dt)

/-- Constraint residual of the psi segment at step t (source lines
fg[1 + psi_start] = vars[psi_start] and fg[1 + psi_start + t] = psi1 - (psi0 + helper_psi_term)). -/
noncomputable def res_psi (vars : ℕ → ℝ) (t : ℕ) : ℝ :=
  if t = 0 then vars psi_start
  else vars (psi_start + t) - (vars (psi_start + t - 1) + helper_psi_term vars t)

/-- Constraint residual of the v segment at step t (source lines
fg[1 + v_start] = vars[v_start] and fg[1 + v_start + t] = v1 - (v0 + a0 * dt)). -/
noncomputable def res_v (vars : ℕ → ℝ) (t : ℕ) : ℝ :=
  if t = 0 then vars v_start
  else vars (v_start + t) - (vars (v_start + t - 1) + vars (a_start + t - 1) * solver_dt)

/-- Constraint residual of the cte segment at step t (source lines
fg[1 + cte_start] = vars[cte_start] and
fg[1 + cte_start + t] = cte1 - ((desired_y0 - y0) + (v0 * sin(epsi0) * dt))
with desired_y0 = polyeval_AD(coeffs, x0)). -/
noncomputable def res_cte (coeffs : List ℝ) (vars : ℕ → ℝ) (t : ℕ) : ℝ :=
  if t = 0 then vars cte_start
  else vars (cte_start + t)
    - ((polyeval_AD coeffs (vars (x_start + t - 1)) - vars (y_start + t - 1))
       + vars (v_start + t - 1) * Real.sin (vars (epsi_start + t - 1)) * solver_dt)

/-- Constraint residual of the epsi segment at step t (source lines
fg[1 + epsi_start] = vars[epsi_start] and
fg[1 + epsi_start + t] = epsi1 - ((psi0 - desired_psi0) + helper_psi_term)
with desired_psi0 = atan(coeffs[1])). -/
noncomputable def res_epsi (coeffs : List ℝ) (vars : ℕ → ℝ) (t : ℕ) : ℝ :=
  if t = 0 then vars epsi_start
  else vars (epsi_start + t)
    - ((vars (psi_start + t - 1) - Real.arctan (coeffs.getD 1 0)) + helper_psi_term vars t)

/-- The combined output vector of FG_eval::operator(): fg[0] is the cost and
fg[1 + j] for a constraint index j < n_constraints is the residual of the
segment containing j at the step offset of j within its segment.  Each fg
entry is written exactly once by the source, so the function returns the value
written at that index. -/
noncomputable def FGeval (coeffs : List ℝ) (vars : ℕ → ℝ) (i : ℕ) : ℝ :=
  if i = 0 then cost vars
  else if i - 1 < y_start then res_x vars (i - 1 - x_start)
  else if i - 1 < psi_start then res_y vars (i - 1 - y_start)
  else if i - 1 < v_start then res_psi vars (i - 1 - psi_start)
  else if i - 1 < cte_start then res_v vars (i - 1 - v_start)
  else if i - 1 < epsi_start then res_cte coeffs vars (i - 1 - cte_start)
  else res_epsi coeffs vars (i - 1 - epsi_start)

/-- Final value of vars_lowerbound[i] after the four bound-setting loops in
MPC::Solve.  The source first fills [0, delta_start) with the no-limit
sentinel -1.0e19, then overwrites [v_start, cte_start) with -speed_limit, then
fills [delta_start, a_start) with -max_delta and [a_start, n_vars) with
-max_acc; the branches below return the last value the source stores. -/
noncomputable def vars_lowerbound (i : ℕ) : ℝ :=
  if v_start ≤ i ∧ i < cte_start then -speed_limit
  else if delta_start ≤ i ∧ i < a_start then -max_delta
  else if a_start ≤ i ∧ i < n_vars then -max_acc
  else -1.0e19

/-- Final value of vars_upperbound[i] after the four bound-setting loops in
MPC::Solve; mirror image of vars_lowerbound. -/
noncomputable def vars_upperbound (i : ℕ) : ℝ :=
  if v_start ≤ i ∧ i < cte_start then speed_limit
  else if delta_start ≤ i ∧ i < a_start then max_delta
  else if a_start ≤ i ∧ i < n_vars then max_acc
  else 1.0e19

/-- Final value of constraints_lowerbound[i] in MPC::Solve: the loop first
sets every entry to 0.0, then the six segment-head entries are overwritten
with the corresponding init_state values. -/
noncomputable def constraints_lowerbound (init_state : ℕ → ℝ) (i : ℕ) : ℝ :=
  if i = x_start then init_state 0
  else if i = y_start then init_state 1
  else if i = psi_start then init_state 2
  else if i = v_start then init_state 3
  else if i = cte_start then init_state 4
  else if i = epsi_start then init_state 5
  else 0

/-- Final value of constraints_upperbound[i] in MPC::Solve.  The source
assigns constraints_lowerbound[i] and constraints_upperbound[i] from the same
expression at every index (chained assignments), so the body is identical to
constraints_lowerbound. -/
noncomputable def constraints_upperbound (init_state : ℕ → ℝ) (i : ℕ) : ℝ :=
  if i = x_start then init_state 0
  else if i = y_start then init_state 1
  else if i = psi_start then init_state 2
  else if i = v_start then init_state 3
  else if i = cte_start then init_state 4
  else if i = epsi_start then init_state 5
  else 0

/-- Result extraction at the end of MPC::Solve: next_delta = solution.x[delta_start],
next_a = solution.x[a_start], and solved_x / solved_y copy solution.x at
x_start + i and y_start + i for i < solver_N. -/
noncomputable def solve_extract (sol : ℕ → ℝ) : ℝ × ℝ × List ℝ × List ℝ :=
  (sol delta_start, sol a_start,
    (List.range solver_N).map (fun i => sol (x_start + i)),
    (List.range solver_N).map (fun i => sol (y_start + i)))

/-- The status values of CppAD::ipopt::solve_result (the external solver
collaborator's result type). -/
inductive SolverStatus where
  | not_defined
  | success
  | maxiter_exceeded
  | stop_at_tiny_step
  | stop_at_acceptable_point
  | local_infeasibility
  | user_requested_stop
  | feasible_point_found
  | diverging_iterates
  | restoration_failure
  | error_in_step_computation
  | invalid_number_detected
  | too_few_degrees_of_freedom
  | internal_error
  | unknown
  deriving DecidableEq

/-- The tail of MPC::Solve after the solver returns: `ok` is true exactly when
the status equals success; when not ok a warning line is printed to stderr
(modelled as the list of emitted lines); in either case the function proceeds
to the same extraction from the solution vector and returns it. -/
noncomputable def solve_finish (status : SolverStatus) (sol : ℕ → ℝ) :
    List String × (ℝ × ℝ × List ℝ × List ℝ) :=
  ((if status = SolverStatus.success then [] else ["WARNING: solver was not successful"]),
    solve_extract sol)

/-- The four state components (x, y, psi, v) propagated by the bicycle-model
update encoded in the future-step residuals of FG_eval::operator(). -/
structure KState where
  x : ℝ
  y : ℝ
  psi : ℝ
  v : ℝ

/-- One step of the kinematic state transition, read off the dynamics
residuals of FG_eval::operator() (the value each step-t variable must equal
for the residual to vanish): x1 = x0 + v0 * cos(psi0) * dt,
y1 = y0 + v0 * sin(psi0) * dt, psi1 = psi0 + v0 * delta0 / Lf * dt,
v1 = v0 + a0 * dt. -/
noncomputable def kinematic_step (s : KState) (delta0 a0 : ℝ) : KState :=
  { x := s.x + s.v * Real.cos s.psi * solver_dt
    y := s.y + s.v * Real.sin s.psi * solver_dt
    psi := s.psi + s.v * delta0 / Lf * solver_dt
    v := s.v + a0 * solver_dt }

/-- k-fold iteration of kinematic_step with zero actuation (delta0 = 0, a0 = 0). -/
noncomputable def kinematic_iter : ℕ → KState → KState
  | 0, s => s
  | k + 1, s => kinematic_step (kinematic_iter k s) 0 0

/-- The coefficient indices read while computing one future-step residual
block of FG_eval::operator(): polyeval_AD reads every index below
coeffs.size (for desired_y0), and desired_psi0 reads index 1 unconditionally. -/
def step_coeff_reads (coeffs : List ℝ) : List ℕ :=
  List.range coeffs.length ++ [1]

/-- All coefficient indices read by FG_eval::operator(): the future-step loop
body runs for the solver_N - 1 steps t = 1 .. solver_N - 1 and performs the
same coefficient reads at each step; the cost loops read no coefficients. -/
def FGeval_coeff_reads (coeffs : List ℝ) : List ℕ :=
  (List.range (solver_N - 1)).flatMap (fun _ => step_coeff_reads coeffs)

/-- All indices of `vars` read by FG_eval::operator(), in source order: the
three cost loops, the six initial-step constraint lines, and the future-step
loop (written with s = t - 1 ranging over 0 .. solver_N - 2, so step t = s + 1
reads indices seg + s + 1 and seg + s as the source's seg + t and seg + t - 1). -/
def FGeval_var_reads : List ℕ :=
  ((List.range solver_N).flatMap (fun t => [cte_start + t, epsi_start + t, v_start + t]))
  ++ ((List.range (solver_N - 1)).flatMap (fun t => [delta_start + t, a_start + t]))
  ++ ((List.range (solver_N - 2)).flatMap (fun t =>
      [delta_start + t + 1, delta_start + t, a_start + t + 1, a_start + t]))
  ++ [x_start, y_start, psi_start, v_start, cte_start, epsi_start]
  ++ ((List.range (solver_N - 1)).flatMap (fun s =>
      [x_start + s + 1, y_start + s + 1, psi_start + s + 1, v_start + s + 1,
        cte_start + s + 1, epsi_start + s + 1,
        x_start + s, y_start + s, psi_start + s, v_start + s, epsi_start + s,
        delta_start + s, a_start + s]))

/-- Decision-vector segment with start offset s and length len, as the set of
indices it occupies. -/
def seg (s len : ℕ) : Finset ℕ := Finset.Ico s (s + len)

/-- The all-zero vector, used to instantiate universally quantified theorems
at a concrete input. -/
noncomputable def zvars : ℕ → ℝ := fun _ => 0

theorem foldl_range_sum (f : ℕ → ℝ) (n : ℕ) :
    (List.range n).foldl (fun result i => result + f i) 0 = ∑ i ∈ Finset.range n, f i := by
  induction n with
  | zero => simp
  | succ n ih =>
    rw [List.range_succ, List.foldl_append, ih, Finset.sum_range_succ]
    simp

theorem polyeval_AD_eq_sum (coeffs : List ℝ) (x : ℝ) :
    polyeval_AD coeffs x = ∑ i ∈ Finset.range coeffs.length, coeffs.getD i 0 * x ^ i :=
  foldl_range_sum (fun i => coeffs.getD i 0 * x ^ i) coeffs.length

theorem FGeval_seg_x (coeffs : List ℝ) (vars : ℕ → ℝ) (t : ℕ) (ht : t < solver_N) :
    FGeval coeffs vars (1 + x_start + t) = res_x vars t := by
  rw [solver_N_eq] at ht
  unfold FGeval
  rw [x_start_eq, y_start_eq]
  rw [if_neg (by omega), if_pos (by omega)]
  have h : 1 + 0 + t - 1 - 0 = t := by omega
  rw [h]

theorem FGeval_seg_y (coeffs : List ℝ) (vars : ℕ → ℝ) (t : ℕ) (ht : t < solver_N) :
    FGeval coeffs vars (1 + y_start + t) = res_y vars t := by
  rw [solver_N_eq] at ht
  unfold FGeval
  rw [y_start_eq, psi_start_eq]
  rw [if_neg (by omega), if_neg (by omega), if_pos (by omega)]
  have h : 1 + 12 + t - 1 - 12 = t := by omega
  rw [h]

theorem FGeval_seg_psi (coeffs : List ℝ) (vars : ℕ → ℝ) (t : ℕ) (ht : t < solver_N) :
    FGeval coeffs vars (1 + psi_start + t) = res_psi vars t := by
  rw [solver_N_eq] at ht
  unfold FGeval
  rw [y_start_eq, psi_start_eq, v_start_eq]
  rw [if_neg (by omega), if_neg (by omega), if_neg (by omega), if_pos (by omega)]
  have h : 1 + 24 + t - 1 - 24 = t := by omega
  rw [h]

theorem FGeval_seg_v (coeffs : List ℝ) (vars : ℕ → ℝ) (t : ℕ) (ht : t < solver_N) :
    FGeval coeffs vars (1 + v_start + t) = res_v vars t := by
  rw [solver_N_eq] at ht
  unfold FGeval
  rw [y_start_eq, psi_start_eq, v_start_eq, cte_start_eq]
  rw [if_neg (by omega), if_neg (by omega), if_neg (by omega), if_neg (by omega),
    if_pos (by omega)]
  have h : 1 + 36 + t - 1 - 36 = t := by omega
  rw [h]

theorem FGeval_seg_cte (coeffs : List ℝ) (vars : ℕ → ℝ) (t : ℕ) (ht : t < solver_N) :
    FGeval coeffs vars (1 + cte_start + t) = res_cte coeffs vars t := by
  rw [solver_N_eq] at ht
  unfold FGeval
  rw [y_start_eq, psi_start_eq, v_start_eq, cte_start_eq, epsi_start_eq]
  rw [if_neg (by omega), if_neg (by omega), if_neg (by omega), if_neg (by omega),
    if_neg (by omega), if_pos (by omega)]
  have h : 1 + 48 + t - 1 - 48 = t := by omega
  rw [h]

theorem FGeval_seg_epsi (coeffs : List ℝ) (vars : ℕ → ℝ) (t : ℕ) (ht : t < solver_N) :
    FGeval coeffs vars (1 + epsi_start + t) = res_epsi coeffs vars t := by
  rw [solver_N_eq] at ht
  unfold FGeval
  rw [y_start_eq, psi_start_eq, v_start_eq, cte_start_eq, epsi_start_eq]
  rw [if_neg (by omega), if_neg (by omega), if_neg (by omega), if_neg (by omega),
    if_neg (by omega), if_neg (by omega)]
  have h : 1 + 60 + t - 1 - 60 = t := by omega
  rw [h]

theorem getD_map_range (f : ℕ → ℝ) (n i : ℕ) (h : i < n) :
    ((List.range n).map f).getD i 0 = f i := by
  rw [List.getD_eq_getElem?_getD]
  simp [List.getElem?_range, h]

/-- Claim C1, counterexample: at steps s = 0 < t = 1 the cte weight used at
step t is strictly smaller than the weight at step s (550 < 600), so the
weight does not increase toward the horizon's far end as claimed. -/
theorem claim_C1_counterexample : cte_weight 1 < cte_weight 0 := by
  norm_num [cte_weight, solver_N]

/-- Claim C1, amended: the position-dependent cte weight 50 * (solver_N - t)
decreases toward the prediction horizon's far end: for all horizon indices
s < t < solver_N, the weight used at step t is less than or equal to the
weight used at step s (the proximal end is penalized more heavily). -/
theorem claim_C1_amended (s t : ℕ) (hst : s < t) (ht : t < solver_N) :
    cte_weight t ≤ cte_weight s := by
  unfold cte_weight
  have h : ((solver_N - t : ℕ) : ℝ) ≤ ((solver_N - s : ℕ) : ℝ) :=
    Nat.cast_le.2 (Nat.sub_le_sub_left hst.le solver_N)
  linarith

/-- Witness for claim C1 amended at s = 0, t = 1. -/
theorem claim_C1_amended_witness : cte_weight 1 ≤ cte_weight 0 :=
  claim_C1_amended 0 1 Nat.zero_lt_one (by norm_num [solver_N])

/-- Claim C4: for the configured horizon solver_N = 12 >= 2, the decision
vector has exactly 6 * solver_N + 2 * (solver_N - 1) entries, partitioned into
contiguous segments in the fixed order x, y, psi, v, cte, epsi (each of length
solver_N) followed by delta and a (each of length solver_N - 1), whose index
ranges are pairwise disjoint. -/
theorem claim_C4 :
    2 ≤ solver_N
    ∧ n_vars = 6 * solver_N + 2 * (solver_N - 1)
    ∧ x_start = 0
    ∧ y_start = x_start + solver_N
    ∧ psi_start = y_start + solver_N
    ∧ v_start = psi_start + solver_N
    ∧ cte_start = v_start + solver_N
    ∧ epsi_start = cte_start + solver_N
    ∧ delta_start = epsi_start + solver_N
    ∧ a_start = delta_start + (solver_N - 1)
    ∧ n_vars = a_start + (solver_N - 1)
    ∧ List.Pairwise (fun u w => ∀ i ∈ u, i ∉ w)
        [seg x_start solver_N, seg y_start solver_N, seg psi_start solver_N,
          seg v_start solver_N, seg cte_start solver_N, seg epsi_start solver_N,
          seg delta_start (solver_N - 1), seg a_start (solver_N - 1)] := by
  decide

/-- Claim C6: iterating the kinematic one-step transition k times with zero
actuation from state (x, y, psi, v) yields x + v * cos(psi) * k * dt and
y + v * sin(psi) * k * dt with psi and v unchanged. -/
theorem claim_C6 (k : ℕ) (s : KState) :
    (kinematic_iter k s).x = s.x + s.v * Real.cos s.psi * (k * solver_dt)
    ∧ (kinematic_iter k s).y = s.y + s.v * Real.sin s.psi * (k * solver_dt)
    ∧ (kinematic_iter k s).psi = s.psi
    ∧ (kinematic_iter k s).v = s.v := by
  induction k with
  | zero => simp [kinematic_iter]
  | succ k ih =>
    obtain ⟨hx, hy, hpsi, hv⟩ := ih
    refine ⟨?_, ?_, ?_, ?_⟩ <;>
      simp only [kinematic_iter, kinematic_step, hx, hy, hpsi, hv] <;>
      push_cast <;> ring

/-- Claim C7: the variable bound arrays built by Solve hold the no-limit
sentinel -1.0e19 / 1.0e19 on the x, y, psi segments and on the cte, epsi
segments, plus-minus speed_limit on the v segment, plus-minus max_delta on
the delta segment and plus-minus max_acc on the a segment. -/
theorem claim_C7 (i : ℕ) :
    (i < v_start → vars_lowerbound i = -1.0e19 ∧ vars_upperbound i = 1.0e19)
    ∧ (cte_start ≤ i → i < delta_start →
        vars_lowerbound i = -1.0e19 ∧ vars_upperbound i = 1.0e19)
    ∧ (v_start ≤ i → i < cte_start →
        vars_lowerbound i = -speed_limit ∧ vars_upperbound i = speed_limit)
    ∧ (delta_start ≤ i → i < a_start →
        vars_lowerbound i = -max_delta ∧ vars_upperbound i = max_delta)
    ∧ (a_start ≤ i → i < n_vars →
        vars_lowerbound i = -max_acc ∧ vars_upperbound i = max_acc) := by
  unfold vars_lowerbound vars_upperbound
  rw [v_start_eq, cte_start_eq, delta_start_eq, a_start_eq, n_vars_eq]
  refine ⟨fun h => ?_, fun h h2 => ?_, fun h h2 => ?_, fun h h2 => ?_, fun h h2 => ?_⟩
  · rw [if_neg (by omega), if_neg (by omega), if_neg (by omega),
      if_neg (by omega), if_neg (by omega), if_neg (by omega)]
    exact ⟨rfl, rfl⟩
  · rw [if_neg (by omega), if_neg (by omega), if_neg (by omega),
      if_neg (by omega), if_neg (by omega), if_neg (by omega)]
    exact ⟨rfl, rfl⟩
  · rw [if_pos (by omega), if_pos (by omega)]
    exact ⟨rfl, rfl⟩
  · rw [if_neg (by omega), if_pos (by omega), if_neg (by omega), if_pos (by omega)]
    exact ⟨rfl, rfl⟩
  · rw [if_neg (by omega), if_neg (by omega), if_pos (by omega),
      if_neg (by omega), if_neg (by omega), if_pos (by omega)]
    exact ⟨rfl, rfl⟩

/-- Witness for claim C7 at i = 0 (an x-segment index). -/
theorem claim_C7_witness : vars_lowerbound 0 = -1.0e19 ∧ vars_upperbound 0 = 1.0e19 :=
  (claim_C7 0).1 (by rw [v_start_eq]; omega)

/-- Claim C8: Solve returns next steering = the solution value at delta_start,
next acceleration = the solution value at a_start, and predicted x and y = the
full x and y segments of the solution, each of length solver_N, in order. -/
theorem claim_C8 (sol : ℕ → ℝ) :
    (solve_extract sol).1 = sol delta_start
    ∧ (solve_extract sol).2.1 = sol a_start
    ∧ (solve_extract sol).2.2.1.length = solver_N
    ∧ (solve_extract sol).2.2.2.length = solver_N
    ∧ (∀ i, i < solver_N → (solve_extract sol).2.2.1.getD i 0 = sol (x_start + i))
    ∧ (∀ i, i < solver_N → (solve_extract sol).2.2.2.getD i 0 = sol (y_start + i)) := by
  refine ⟨rfl, rfl, by simp [solve_extract], by simp [solve_extract], ?_, ?_⟩
  · intro i hi
    exact getD_map_range (fun j => sol (x_start + j)) solver_N i hi
  · intro i hi
    exact getD_map_range (fun j => sol (y_start + j)) solver_N i hi

/-- Witness for claim C8 at the all-zero solution vector and i = 0. -/
theorem claim_C8_witness :
    (solve_extract zvars).2.2.1.getD 0 0 = zvars (x_start + 0) :=
  (claim_C8 zvars).2.2.2.2.1 0 (by rw [solver_N_eq]; omega)

/-- Claim C9: for every solver status, Solve emits the non-fatal warning line
exactly when the status is not success, and the returned tuple is computed by
the same extraction from the candidate solution vector regardless of status
(no exception, no retry, no fallback, no absent result). -/
theorem claim_C9 (status : SolverStatus) (sol : ℕ → ℝ) :
    (solve_finish status sol).2 = solve_extract sol
    ∧ ((solve_finish status sol).1 ≠ [] ↔ status ≠ SolverStatus.success) := by
  refine ⟨rfl, ?_⟩
  by_cases h : status = SolverStatus.success <;> simp [solve_finish, h]

/-- Witness for claim C9 at a non-success status and the all-zero solution. -/
theorem claim_C9_witness :
    (solve_finish SolverStatus.maxiter_exceeded zvars).2 = solve_extract zvars :=
  (claim_C9 SolverStatus.maxiter_exceeded zvars).1

/-- Claim C2: for every decision vector, every coefficient vector with at
least 2 entries, and every horizon step t in 1 .. solver_N - 1, the
dynamics-consistency residuals equal the step-t variable minus the
bicycle-model prediction from step t-1, with the cte residual using the
polynomial P(coeffs, x0) = sum of coeffs[i] * x0 ^ i and the epsi residual
using atan(coeffs[1]); the heading term v0 * delta0 / Lf * dt is the shared
expression helper_psi_term appearing identically in the psi and epsi
residuals, as the final conjunct makes explicit. -/
theorem claim_C2 (coeffs : List ℝ) (vars : ℕ → ℝ) (t : ℕ)
    (hc : 2 ≤ coeffs.length) (ht1 : 1 ≤ t) (htN : t < solver_N) :
    FGeval coeffs vars (1 + x_start + t)
        = vars (x_start + t)
          - (vars (x_start + t - 1)
             + vars (v_start + t - 1) * Real.cos (vars (psi_start + t - 1)) * solver_dt)
    ∧ FGeval coeffs vars (1 + y_start + t)
        = vars (y_start + t)
          - (vars (y_start + t - 1)
             + vars (v_start + t - 1) * Real.sin (vars (psi_start + t - 1)) * solver_dt)
    ∧ FGeval coeffs vars (1 + psi_start + t)
        = vars (psi_start + t) - (vars (psi_start + t - 1) + helper_psi_term vars t)
    ∧ FGeval coeffs vars (1 + v_start + t)
        = vars (v_start + t)
          - (vars (v_start + t - 1) + vars (a_start + t - 1) * solver_dt)
    ∧ FGeval coeffs vars (1 + cte_start + t)
        = vars (cte_start + t)
          - (((∑ i ∈ Finset.range coeffs.length, coeffs.getD i 0 * vars (x_start + t - 1) ^ i)
              - vars (y_start + t - 1))
             + vars (v_start + t - 1) * Real.sin (vars (epsi_start + t - 1)) * solver_dt)
    ∧ FGeval coeffs vars (1 + epsi_start + t)
        = vars (epsi_start + t)
          - ((vars (psi_start + t - 1) - Real.arctan (coeffs.getD 1 0))
             + helper_psi_term vars t)
    ∧ helper_psi_term vars t
        = vars (v_start + t - 1) * vars (delta_start + t - 1) / Lf * solver_dt := by
  have ht0 : t ≠ 0 := by omega
  refine ⟨?_, ?_, ?_, ?_, ?_, ?_, rfl⟩
  · rw [FGeval_seg_x coeffs vars t htN]
    unfold res_x
    rw [if_neg ht0]
  · rw [FGeval_seg_y coeffs vars t htN]
    unfold res_y
    rw [if_neg ht0]
  · rw [FGeval_seg_psi coeffs vars t htN]
    unfold res_psi
    rw [if_neg ht0]
  · rw [FGeval_seg_v coeffs vars t htN]
    unfold res_v
    rw [if_neg ht0]
  · rw [FGeval_seg_cte coeffs vars t htN]
    unfold res_cte
    rw [if_neg ht0, polyeval_AD_eq_sum]
  · rw [FGeval_seg_epsi coeffs vars t htN]
    unfold res_epsi
    rw [if_neg ht0]

/-- Witness for claim C2 at coeffs = [0, 0], the all-zero decision vector and
t = 1 (the v-segment residual conjunct). -/
theorem claim_C2_witness :
    FGeval [0, 0] zvars (1 + v_start + 1)
      = zvars (v_start + 1) - (zvars (v_start + 1 - 1) + zvars (a_start + 1 - 1) * solver_dt) :=
  (claim_C2 [0, 0] zvars 1 (by simp) le_rfl (by rw [solver_N_eq]; omega)).2.2.2.1

/-- Claim C3, counterexample: take the caller-supplied initial state that is
constantly 2.  Constraint index 1 is among the first 6 indices of the
constraint vector, yet its lower bound is 0, not the initial-state value:
the six pinning entries sit at the segment-head indices 0, 12, 24, 36, 48,
60, not at the first six indices 0 .. 5. -/
theorem claim_C3_counterexample :
    constraints_lowerbound (fun _ => 2) 1 ≠ 2 := by
  unfold constraints_lowerbound
  rw [x_start_eq, y_start_eq, psi_start_eq, v_start_eq, cte_start_eq, epsi_start_eq]
  norm_num

/-- Claim C3, amended: the constraint vector has length exactly 6 * solver_N;
the six pinning residuals sit at the segment-head indices x_start, y_start,
psi_start, v_start, cte_start, epsi_start (not at the first six positions),
where the residual is the raw decision variable (not a difference); the
constraint lower and upper bound arrays are equal at every index, hold the
caller-supplied initial-state value at each of those six segment-head indices,
and hold zero at every other constraint index. -/
theorem claim_C3_amended :
    n_constraints = 6 * solver_N
    ∧ (∀ (coeffs : List ℝ) (vars : ℕ → ℝ),
        FGeval coeffs vars (1 + x_start) = vars x_start
        ∧ FGeval coeffs vars (1 + y_start) = vars y_start
        ∧ FGeval coeffs vars (1 + psi_start) = vars psi_start
        ∧ FGeval coeffs vars (1 + v_start) = vars v_start
        ∧ FGeval coeffs vars (1 + cte_start) = vars cte_start
        ∧ FGeval coeffs vars (1 + epsi_start) = vars epsi_start)
    ∧ (∀ (init_state : ℕ → ℝ) (i : ℕ),
        constraints_lowerbound init_state i = constraints_upperbound init_state i)
    ∧ (∀ init_state : ℕ → ℝ,
        constraints_lowerbound init_state x_start = init_state 0
        ∧ constraints_lowerbound init_state y_start = init_state 1
        ∧ constraints_lowerbound init_state psi_start = init_state 2
        ∧ constraints_lowerbound init_state v_start = init_state 3
        ∧ constraints_lowerbound init_state cte_start = init_state 4
        ∧ constraints_lowerbound init_state epsi_start = init_state 5)
    ∧ (∀ (init_state : ℕ → ℝ) (i : ℕ), i ≠ x_start → i ≠ y_start → i ≠ psi_start →
        i ≠ v_start → i ≠ cte_start → i ≠ epsi_start →
        constraints_lowerbound init_state i = 0) := by
  refine ⟨rfl, ?_, fun init i => rfl, ?_, ?_⟩
  · intro coeffs vars
    have hN : (0 : ℕ) < solver_N := by rw [solver_N_eq]; omega
    refine ⟨?_, ?_, ?_, ?_, ?_, ?_⟩
    · simpa [res_x] using FGeval_seg_x coeffs vars 0 hN
    · simpa [res_y] using FGeval_seg_y coeffs vars 0 hN
    · simpa [res_psi] using FGeval_seg_psi coeffs vars 0 hN
    · simpa [res_v] using FGeval_seg_v coeffs vars 0 hN
    · simpa [res_cte] using FGeval_seg_cte coeffs vars 0 hN
    · simpa [res_epsi] using FGeval_seg_epsi coeffs vars 0 hN
  · intro init
    unfold constraints_lowerbound
    rw [x_start_eq, y_start_eq, psi_start_eq, v_start_eq, cte_start_eq, epsi_start_eq]
    refine ⟨?_, ?_, ?_, ?_, ?_, ?_⟩ <;> norm_num
  · intro init i h1 h2 h3 h4 h5 h6
    unfold constraints_lowerbound
    rw [if_neg h1, if_neg h2, if_neg h3, if_neg h4, if_neg h5, if_neg h6]

/-- Witness for claim C3 amended at the all-zero initial state and the
non-head constraint index 1. -/
theorem claim_C3_amended_witness : constraints_lowerbound zvars 1 = 0 :=
  claim_C3_amended.2.2.2.2 zvars 1 (by rw [x_start_eq]; omega) (by rw [y_start_eq]; omega)
    (by rw [psi_start_eq]; omega) (by rw [v_start_eq]; omega) (by rw [cte_start_eq]; omega)
    (by rw [epsi_start_eq]; omega)

theorem wsq_eq_zero_iff (w x d : ℝ) (hw : 0 < w) (hd : d ≠ 0) :
    w * (x / d) ^ 2 = 0 ↔ x = 0 := by
  rw [mul_eq_zero]
  simp [hw.ne', sq_eq_zero_iff, div_eq_zero_iff, hd]

theorem sum3_zero_iff (a b c : ℝ) (ha : 0 ≤ a) (hb : 0 ≤ b) (hc : 0 ≤ c) :
    a + b + c = 0 ↔ a = 0 ∧ b = 0 ∧ c = 0 := by
  constructor
  · intro h
    exact ⟨by linarith, by linarith, by linarith⟩
  · rintro ⟨h1, h2, h3⟩
    rw [h1, h2, h3]
    ring

theorem sum2_zero_iff (a b : ℝ) (ha : 0 ≤ a) (hb : 0 ≤ b) :
    a + b = 0 ↔ a = 0 ∧ b = 0 := by
  constructor
  · intro h
    exact ⟨by linarith, by linarith⟩
  · rintro ⟨h1, h2⟩
    rw [h1, h2]
    ring

theorem std_cte_ne : std_cte ≠ 0 := by norm_num [std_cte]

theorem std_epsi_ne : std_epsi ≠ 0 := by
  unfold std_epsi
  positivity

theorem speed_limit_pos : 0 < speed_limit := by
  unfold speed_limit mps_to_mph
  norm_num

theorem speed_limit_ne : speed_limit ≠ 0 := ne_of_gt speed_limit_pos

theorem max_delta_ne : max_delta ≠ 0 := by norm_num [max_delta]

theorem max_acc_ne : max_acc ≠ 0 := by norm_num [max_acc]

theorem std_ddelta_dt_ne : std_ddelta_dt ≠ 0 := by norm_num [std_ddelta_dt, max_delta]

theorem std_dacc_dt_ne : std_dacc_dt ≠ 0 := by norm_num [std_dacc_dt, max_acc]

theorem cte_weight_nonneg (t : ℕ) : 0 ≤ cte_weight t := by
  unfold cte_weight
  positivity

theorem cte_weight_pos (t : ℕ) (ht : t < solver_N) : 0 < cte_weight t := by
  unfold cte_weight
  have h : 0 < solver_N - t := Nat.sub_pos_of_lt ht
  have h2 : (0 : ℝ) < ((solver_N - t : ℕ) : ℝ) := by exact_mod_cast h
  linarith

theorem cost_state_term_nonneg (vars : ℕ → ℝ) (t : ℕ) : 0 ≤ cost_state_term vars t := by
  unfold cost_state_term
  have h1 : 0 ≤ cte_weight t * (vars (cte_start + t) / std_cte) ^ 2 :=
    mul_nonneg (cte_weight_nonneg t) (sq_nonneg _)
  have h2 : 0 ≤ 2 * (vars (epsi_start + t) / std_epsi) ^ 2 := by positivity
  have h3 : 0 ≤ 50 * ((vars (v_start + t) - speed_limit) / speed_limit) ^ 2 := by positivity
  linarith

theorem cost_mag_term_nonneg (vars : ℕ → ℝ) (t : ℕ) : 0 ≤ cost_mag_term vars t := by
  unfold cost_mag_term
  positivity

theorem cost_rate_term_nonneg (vars : ℕ → ℝ) (t : ℕ) : 0 ≤ cost_rate_term vars t := by
  unfold cost_rate_term
  positivity

theorem cost_state_term_zero_iff (vars : ℕ → ℝ) (t : ℕ) (ht : t < solver_N) :
    cost_state_term vars t = 0 ↔
      vars (cte_start + t) = 0 ∧ vars (epsi_start + t) = 0
      ∧ vars (v_start + t) = speed_limit := by
  unfold cost_state_term
  rw [sum3_zero_iff _ _ _ (mul_nonneg (cte_weight_nonneg t) (sq_nonneg _))
    (by positivity) (by positivity)]
  rw [wsq_eq_zero_iff _ _ _ (cte_weight_pos t ht) std_cte_ne,
    wsq_eq_zero_iff _ _ _ (by norm_num) std_epsi_ne,
    wsq_eq_zero_iff _ _ _ (by norm_num) speed_limit_ne]
  rw [sub_eq_zero]

theorem cost_mag_term_zero_iff (vars : ℕ → ℝ) (t : ℕ) :
    cost_mag_term vars t = 0 ↔
      vars (delta_start + t) = 0 ∧ vars (a_start + t) = 0 := by
  unfold cost_mag_term
  rw [sum2_zero_iff _ _ (by positivity) (by positivity)]
  rw [wsq_eq_zero_iff _ _ _ (by norm_num) max_delta_ne,
    wsq_eq_zero_iff _ _ _ (by norm_num) max_acc_ne]

theorem cost_rate_term_zero_iff (vars : ℕ → ℝ) (t : ℕ) :
    cost_rate_term vars t = 0 ↔
      vars (delta_start + t + 1) - vars (delta_start + t) = 0
      ∧ vars (a_start + t + 1) - vars (a_start + t) = 0 := by
  unfold cost_rate_term
  rw [sum2_zero_iff _ _ (by positivity) (by positivity)]
  rw [wsq_eq_zero_iff _ _ _ (by norm_num) std_ddelta_dt_ne,
    wsq_eq_zero_iff _ _ _ (by norm_num) std_dacc_dt_ne]

/-- Claim C5: the cost is non-negative for every decision vector, and it is
zero exactly when every weighted term's numerator is zero: every cte_t = 0,
every epsi_t = 0, every v_t equal to the target speed (the code's
speed_limit), every delta_t = 0, every a_t = 0, and every consecutive
actuator difference zero. -/
theorem claim_C5 (vars : ℕ → ℝ) :
    0 ≤ cost vars
    ∧ (cost vars = 0 ↔
        ((∀ t, t < solver_N →
            vars (cte_start + t) = 0 ∧ vars (epsi_start + t) = 0
            ∧ vars (v_start + t) = speed_limit)
          ∧ (∀ t, t < solver_N - 1 →
              vars (delta_start + t) = 0 ∧ vars (a_start + t) = 0)
          ∧ (∀ t, t < solver_N - 2 →
              vars (delta_start + t + 1) - vars (delta_start + t) = 0
              ∧ vars (a_start + t + 1) - vars (a_start + t) = 0))) := by
  have hA : 0 ≤ ∑ t ∈ Finset.range solver_N, cost_state_term vars t :=
    Finset.sum_nonneg (fun t _ => cost_state_term_nonneg vars t)
  have hB : 0 ≤ ∑ t ∈ Finset.range (solver_N - 1), cost_mag_term vars t :=
    Finset.sum_nonneg (fun t _ => cost_mag_term_nonneg vars t)
  have hC : 0 ≤ ∑ t ∈ Finset.range (solver_N - 2), cost_rate_term vars t :=
    Finset.sum_nonneg (fun t _ => cost_rate_term_nonneg vars t)
  constructor
  · unfold cost
    linarith
  · unfold cost
    rw [sum3_zero_iff _ _ _ hA hB hC]
    rw [Finset.sum_eq_zero_iff_of_nonneg (fun t _ => cost_state_term_nonneg vars t),
      Finset.sum_eq_zero_iff_of_nonneg (fun t _ => cost_mag_term_nonneg vars t),
      Finset.sum_eq_zero_iff_of_nonneg (fun t _ => cost_rate_term_nonneg vars t)]
    constructor
    · rintro ⟨h1, h2, h3⟩
      refine ⟨fun t ht => ?_, fun t ht => ?_, fun t ht => ?_⟩
      · exact (cost_state_term_zero_iff vars t ht).1 (h1 t (Finset.mem_range.2 ht))
      · exact (cost_mag_term_zero_iff vars t).1 (h2 t (Finset.mem_range.2 ht))
      · exact (cost_rate_term_zero_iff vars t).1 (h3 t (Finset.mem_range.2 ht))
    · rintro ⟨h1, h2, h3⟩
      refine ⟨fun t ht => ?_, fun t ht => ?_, fun t ht => ?_⟩
      · exact (cost_state_term_zero_iff vars t (Finset.mem_range.1 ht)).2
          (h1 t (Finset.mem_range.1 ht))
      · exact (cost_mag_term_zero_iff vars t).2 (h2 t (Finset.mem_range.1 ht))
      · exact (cost_rate_term_zero_iff vars t).2 (h3 t (Finset.mem_range.1 ht))

/-- Witness for claim C5 at the all-zero decision vector. -/
theorem claim_C5_witness : 0 ≤ cost zvars := (claim_C5 zvars).1

set_option maxRecDepth 4000 in
/-- Claim C10: the polynomial evaluation is total in the coefficient length
(it equals the sum of coeffs[i] * x ^ i over the available indices, and is 0
on the empty list); the future-step residual block reads coefficient index 1
unconditionally, so a coefficient vector shorter than 2 makes that read
out of bounds (the required precondition); and with length at least 2, every
coefficient read and every decision-vector read of the combined
cost-and-constraint evaluation is in bounds. -/
theorem claim_C10 :
    (∀ (coeffs : List ℝ) (x : ℝ),
        polyeval_AD coeffs x = ∑ i ∈ Finset.range coeffs.length, coeffs.getD i 0 * x ^ i)
    ∧ (∀ x : ℝ, polyeval_AD [] x = 0)
    ∧ (∀ coeffs : List ℝ, (1 : ℕ) ∈ step_coeff_reads coeffs)
    ∧ (∀ coeffs : List ℝ, coeffs.length < 2 →
        ¬ (∀ j ∈ step_coeff_reads coeffs, j < coeffs.length))
    ∧ (∀ coeffs : List ℝ, 2 ≤ coeffs.length →
        ∀ j ∈ FGeval_coeff_reads coeffs, j < coeffs.length)
    ∧ (∀ j ∈ FGeval_var_reads, j < n_vars) := by
  refine ⟨polyeval_AD_eq_sum, ?_, ?_, ?_, ?_, ?_⟩
  · intro x
    simp [polyeval_AD]
  · intro coeffs
    simp [step_coeff_reads]
  · intro coeffs h hall
    have h1 := hall 1 (by simp [step_coeff_reads])
    omega
  · intro coeffs h j hj
    simp only [FGeval_coeff_reads, step_coeff_reads, List.mem_flatMap, List.mem_append,
      List.mem_range, List.mem_singleton] at hj
    obtain ⟨t, -, hj | hj⟩ := hj
    · exact hj
    · omega
  · decide

/-- Witness for claim C10 at coeffs = [0, 0]. -/
theorem claim_C10_witness :
    (1 : ℕ) ∈ step_coeff_reads [0, 0]
    ∧ (∀ j ∈ FGeval_coeff_reads [0, 0], j < ([0, 0] : List ℝ).length) :=
  ⟨claim_C10.2.2.1 [0, 0], claim_C10.2.2.2.2.1 [0, 0] (by simp)⟩

end MPC
